import Mathlib

/-!
Verification of the ECDH key-exchange core of PolarSSL (`include/polarssl/ecdh.h`).
The repository ships only the interface header; the operation bodies are modelled
from the specification document, which treats the elliptic-curve group and the
big-integer arithmetic as external collaborators and pins down the protocol
logic: validation ordering, rejection sampling, buffer discipline, zeroization
and the frame of every operation.
-/

/-- Error taxonomy of the ECDH core, from the spec's section 7: entropy failure,
invalid peer point, underlying arithmetic failure, and insufficient output buffer. -/
inductive EcdhError where
  | RandomSourceFailure
  | InvalidPeerPublicKey
  | GroupArithmeticFailure
  | BufferTooSmall
  deriving DecidableEq

/-- Point-encoding preference of a context (`point_format` field of
`ecdh_context` in the header): uncompressed or compressed. -/
inductive PointFormat where
  | uncompressed
  | compressed
  deriving DecidableEq

/-- The EC group collaborator (`ecp_group` in the header), as the interface the
spec requires from it: a named-curve identifier, base point `G`, identity
element `zero`, group order `N`, field byte-width `plen`, scalar
multiplication `mul`, the point-on-curve check `onCurve`, the identity test
`isZero`, and coordinate extraction `xCoord` / `yCoord` as big integers. -/
structure ECGroup (Point : Type) where
  curve_id : Nat
  G : Point
  zero : Point
  N : Nat
  plen : Nat
  mul : Nat → Point → Point
  onCurve : Point → Bool
  isZero : Point → Bool
  xCoord : Point → Nat
  yCoord : Point → Nat

/-- The contract the spec demands of the EC group collaborator: scalar
multiplication composes multiplicatively, the base point and every multiple of
an on-curve point lie on the curve, and the identity test decides equality with
the identity element. -/
structure ECGroup.Valid {Point : Type} (grp : ECGroup Point) : Prop where
  mul_mul : ∀ (a b : Nat) (p : Point), grp.mul a (grp.mul b p) = grp.mul (a * b) p
  onCurve_G : grp.onCurve grp.G = true
  onCurve_mul : ∀ (a : Nat) (p : Point), grp.onCurve p = true → grp.onCurve (grp.mul a p) = true
  isZero_iff : ∀ (p : Point), grp.isZero p = true ↔ p = grp.zero

/-- The ECDH context structure from the header: the group, our secret scalar
`d`, our public point `Q`, the peer's public point `Qp`, the shared secret `z`,
and the point-format preference. Big integers are modelled as `Nat`. -/
structure ecdh_context (Point : Type) where
  grp : ECGroup Point
  d : Nat
  Q : Point
  Qp : Point
  z : Nat
  point_format : PointFormat

/-- Modelled from the spec: `ecdh_gen_public` (section 4.2). The body is not
under `src/`, only its declaration. The random source is a finite list of
draws, each already interpreted as a candidate scalar (or `none` when the
source reports an error). Rejection sampling discards candidates that are zero
or at least the group order, computes `Q = d * G`, rejects the draw when `Q`
is the identity, and otherwise returns the pair. An exhausted or failing
source gives `RandomSourceFailure`. -/
def ecdh_gen_public {Point : Type} (grp : ECGroup Point) :
    List (Option Nat) → Except EcdhError (Nat × Point)
  | [] => Except.error EcdhError.RandomSourceFailure
  | none :: _ => Except.error EcdhError.RandomSourceFailure
  | some c :: rest =>
      if c = 0 ∨ grp.N ≤ c then ecdh_gen_public grp rest
      else if grp.isZero (grp.mul c grp.G) then ecdh_gen_public grp rest
      else Except.ok (c, grp.mul c grp.G)

/-- Modelled from the spec: `ecdh_compute_shared` (section 4.3), instrumented
with the step structure the spec prescribes. The body is not under `src/`,
only its declaration. The peer point is validated first (not the identity and
on the curve); on failure the call returns `InvalidPeerPublicKey` without
multiplying. The second component records whether the scalar-multiplication
primitive was invoked. -/
def ecdh_compute_shared_steps {Point : Type} (grp : ECGroup Point) (Qp : Point) (d : Nat) :
    Except EcdhError Nat × Bool :=
  if grp.isZero Qp || !(grp.onCurve Qp) then
    (Except.error EcdhError.InvalidPeerPublicKey, false)
  else
    (Except.ok (grp.xCoord (grp.mul d Qp)), true)

/-- Modelled from the spec: the result of `ecdh_compute_shared` — the
x-coordinate of `d * Qp`, or `InvalidPeerPublicKey` when validation fails. -/
def ecdh_compute_shared {Point : Type} (grp : ECGroup Point) (Qp : Point) (d : Nat) :
    Except EcdhError Nat :=
  (ecdh_compute_shared_steps grp Qp d).1

/-- Modelled from the spec: the memory footprint of a call to
`ecdh_compute_shared`. The C signature takes `grp`, `Q` and `d` through const
pointers and writes only through the destination pointer `z`; the tuple gives
the post-call values of `(grp, z, Qp, d)` together with the status. -/
def ecdh_compute_shared_mem {Point : Type} (grp : ECGroup Point) (z : Nat) (Qp : Point)
    (d : Nat) : ECGroup Point × Nat × Point × Nat × Except EcdhError Unit :=
  match ecdh_compute_shared grp Qp d with
  | Except.error e => (grp, z, Qp, d, Except.error e)
  | Except.ok zv => (grp, zv, Qp, d, Except.ok ())

/-- Modelled from the spec: the memory footprint of a call to
`ecdh_gen_public`. The group is passed through a const pointer and is never
mutated; the first component gives the group's value after the call. -/
def ecdh_gen_public_mem {Point : Type} (grp : ECGroup Point) (rng : List (Option Nat)) :
    ECGroup Point × Except EcdhError (Nat × Point) :=
  (grp, ecdh_gen_public grp rng)

/-- Modelled from the spec: `ecdh_free` (section 4.1). The body is not under
`src/`, only its declaration. Secret material — the secret scalar `d` and the
shared secret `z` — is overwritten with zero before release. -/
def ecdh_free {Point : Type} (ctx : ecdh_context Point) : ecdh_context Point :=
  { ctx with d := 0, z := 0 }

/-- Big-endian byte encoding of a natural number at a fixed width `w`
(coordinate byte-width equal to the field size, from the spec's section 6). -/
def natToBytesBE : Nat → Nat → List Nat
  | 0, _ => []
  | w + 1, n => natToBytesBE w (n / 256) ++ [n % 256]

/-- Modelled from the spec: point serialization (section 4.4). Uncompressed
format emits format byte 4 followed by X and Y at the field byte-width;
compressed format emits a format byte carrying the parity of Y followed by X
only. -/
def ecp_point_write {Point : Type} (grp : ECGroup Point) (pf : PointFormat) (Q : Point) :
    List Nat :=
  match pf with
  | PointFormat.uncompressed =>
      4 :: (natToBytesBE grp.plen (grp.xCoord Q) ++ natToBytesBE grp.plen (grp.yCoord Q))
  | PointFormat.compressed =>
      (2 + grp.yCoord Q % 2) :: natToBytesBE grp.plen (grp.xCoord Q)

/-- Modelled from the spec: the ServerKeyExchange parameter block (section 6):
a curve-type tag (3 = named curve), the two-byte named-curve identifier, a
point-length byte and the encoded point. -/
def ecdh_params_encoding {Point : Type} (grp : ECGroup Point) (pf : PointFormat) (Q : Point) :
    List Nat :=
  3 :: (natToBytesBE 2 grp.curve_id ++
    ((ecp_point_write grp pf Q).length :: ecp_point_write grp pf Q))

/-- The number of bytes `ecdh_make_server_params` requires, computable from the
group and the point format alone. -/
def ecdh_params_len {Point : Type} (grp : ECGroup Point) (pf : PointFormat) : Nat :=
  match pf with
  | PointFormat.uncompressed => 4 + (1 + 2 * grp.plen)
  | PointFormat.compressed => 4 + (1 + grp.plen)

/-- Overwrite the first `out.length` bytes of `buf` with `out`, leaving the
tail untouched. -/
def writeBytes (buf out : List Nat) : List Nat :=
  out ++ buf.drop out.length

/-- Modelled from the spec: `ecdh_make_server_params` (section 4.4). The body
is not under `src/`, only its declaration. The caller's buffer is its byte
list (capacity = length). The operation checks the capacity against the
required encoding length and signals `BufferTooSmall` without writing when the
buffer is too small; otherwise it generates a key pair internally (section
4.2), stores it in the context's `d` and `Q` fields, and writes the parameter
block, reporting the exact number of bytes written. The result is the status,
the post-call context, `olen`, and the post-call buffer. -/
def ecdh_make_server_params {Point : Type} (ctx : ecdh_context Point)
    (rng : List (Option Nat)) (buf : List Nat) :
    Except EcdhError Unit × ecdh_context Point × Nat × List Nat :=
  if buf.length < ecdh_params_len ctx.grp ctx.point_format then
    (Except.error EcdhError.BufferTooSmall, ctx, 0, buf)
  else
    match ecdh_gen_public ctx.grp rng with
    | Except.error e => (Except.error e, ctx, 0, buf)
    | Except.ok (d, Q) =>
        let out := ecdh_params_encoding ctx.grp ctx.point_format Q
        (Except.ok (), { ctx with d := d, Q := Q }, out.length, writeBytes buf out)

/-- A concrete instance of the EC-group contract for evaluating the operations:
the cyclic group of order 5 written additively as `ZMod 5`, with scalar
multiplication given by multiplication in `ZMod 5`, every element regarded as
on-curve, and both coordinates of an element given by its value. -/
def toyGroup : ECGroup (ZMod 5) where
  curve_id := 23
  G := 1
  zero := 0
  N := 5
  plen := 1
  mul := fun a p => (a : ZMod 5) * p
  onCurve := fun _ => true
  isZero := fun p => decide (p = 0)
  xCoord := fun p => p.val
  yCoord := fun p => p.val

/-- The concrete group satisfies the EC-group contract. -/
theorem toyValid : toyGroup.Valid where
  mul_mul := by
    intro a b p
    show ((a : ZMod 5) * ((b : ZMod 5) * p)) = ((a * b : Nat) : ZMod 5) * p
    push_cast
    ring
  onCurve_G := rfl
  onCurve_mul := by intro a p _; rfl
  isZero_iff := by
    intro p
    show (decide (p = 0) = true) ↔ p = toyGroup.zero
    simp only [decide_eq_true_eq]
    exact Iff.rfl

/-- A concrete context over the toy group, with arbitrary peer point and a
nonzero stale shared secret. -/
def toyCtx : ecdh_context (ZMod 5) where
  grp := toyGroup
  d := 0
  Q := 0
  Qp := 4
  z := 9
  point_format := PointFormat.uncompressed

/-- Every successful run of key generation returns a scalar in `[1, N-1]`
together with the corresponding multiple of the base point, and the identity
test on the returned point is false. -/
theorem ecdh_gen_public_spec {Point : Type} (grp : ECGroup Point) (rng : List (Option Nat)) :
    ∀ (d : Nat) (Q : Point),
      ecdh_gen_public grp rng = Except.ok (d, Q) →
      1 ≤ d ∧ d < grp.N ∧ Q = grp.mul d grp.G ∧ grp.isZero Q = false := by
  induction rng with
  | nil => intro d Q h; simp [ecdh_gen_public] at h
  | cons c rest ih =>
      intro d Q h
      cases c with
      | none => simp [ecdh_gen_public] at h
      | some v =>
          simp only [ecdh_gen_public] at h
          by_cases h1 : v = 0 ∨ grp.N ≤ v
          · rw [if_pos h1] at h
            exact ih d Q h
          · rw [if_neg h1] at h
            by_cases h2 : grp.isZero (grp.mul v grp.G) = true
            · rw [if_pos h2] at h
              exact ih d Q h
            · rw [if_neg h2] at h
              rw [Except.ok.injEq, Prod.mk.injEq] at h
              obtain ⟨hd, hQ⟩ := h
              push_neg at h1
              subst hd
              refine ⟨Nat.one_le_iff_ne_zero.mpr h1.1, h1.2, hQ.symm, ?_⟩
              rw [← hQ]
              exact Bool.not_eq_true _ ▸ h2

/-- A draw at least the group order is discarded: generation on such a draw
continues with the rest of the random stream. -/
theorem ecdh_gen_public_redraw {Point : Type} (grp : ECGroup Point) (v : Nat)
    (rest : List (Option Nat)) (hv : grp.N ≤ v) :
    ecdh_gen_public grp (some v :: rest) = ecdh_gen_public grp rest := by
  simp only [ecdh_gen_public]
  rw [if_pos (Or.inr hv)]

/-- C1: Agreement — for any valid EC group, if party A generates `(dA, QA)` and
party B independently generates `(dB, QB)` via `ecdh_gen_public`, then
`ecdh_compute_shared` on B's public point with A's scalar and on A's public
point with B's scalar both succeed with the same shared value, equal to the
x-coordinate of `dA * dB * basePoint`. -/
theorem ecdh_agreement {Point : Type} (grp : ECGroup Point) (hv : grp.Valid)
    (rngA rngB : List (Option Nat)) (dA dB : Nat) (QA QB : Point)
    (hA : ecdh_gen_public grp rngA = Except.ok (dA, QA))
    (hB : ecdh_gen_public grp rngB = Except.ok (dB, QB)) :
    ecdh_compute_shared grp QB dA = Except.ok (grp.xCoord (grp.mul (dA * dB) grp.G)) ∧
    ecdh_compute_shared grp QA dB = Except.ok (grp.xCoord (grp.mul (dA * dB) grp.G)) := by
  obtain ⟨-, -, hQA, hzA⟩ := ecdh_gen_public_spec grp rngA dA QA hA
  obtain ⟨-, -, hQB, hzB⟩ := ecdh_gen_public_spec grp rngB dB QB hB
  have hcA : grp.onCurve QA = true := hQA ▸ hv.onCurve_mul dA grp.G hv.onCurve_G
  have hcB : grp.onCurve QB = true := hQB ▸ hv.onCurve_mul dB grp.G hv.onCurve_G
  unfold ecdh_compute_shared ecdh_compute_shared_steps
  rw [hzA, hzB, hcA, hcB]
  simp only [Bool.not_true, Bool.or_false, Bool.false_eq_true, if_false]
  constructor
  · rw [hQB, hv.mul_mul]
  · rw [hQA, hv.mul_mul, Nat.mul_comm dB dA]

/-- C1 witness: over the concrete group, party A draws scalar 2 and party B
draws scalar 3; both directions of the computation agree on the x-coordinate
of `6 * G`. -/
theorem ecdh_agreement_witness :
    ecdh_gen_public toyGroup [some 2] = Except.ok (2, (2 : ZMod 5)) ∧
    ecdh_gen_public toyGroup [some 3] = Except.ok (3, (3 : ZMod 5)) ∧
    (ecdh_compute_shared toyGroup (3 : ZMod 5) 2 =
        Except.ok (toyGroup.xCoord (toyGroup.mul (2 * 3) toyGroup.G)) ∧
      ecdh_compute_shared toyGroup (2 : ZMod 5) 3 =
        Except.ok (toyGroup.xCoord (toyGroup.mul (2 * 3) toyGroup.G))) :=
  ⟨rfl, rfl, ecdh_agreement toyGroup toyValid [some 2] [some 3] 2 3 2 3 rfl rfl⟩

/-- C2: Peer-point validation — for every peer point that is the group
identity or fails the curve-equation check, `ecdh_compute_shared` fails with
`InvalidPeerPublicKey` and the scalar-multiplication step is never reached
(the step flag is `false`). -/
theorem ecdh_compute_shared_rejects_invalid_peer {Point : Type} (grp : ECGroup Point)
    (hv : grp.Valid) (Qp : Point) (d : Nat)
    (h : Qp = grp.zero ∨ grp.onCurve Qp = false) :
    ecdh_compute_shared_steps grp Qp d =
      (Except.error EcdhError.InvalidPeerPublicKey, false) := by
  unfold ecdh_compute_shared_steps
  cases h with
  | inl h0 =>
      rw [(hv.isZero_iff Qp).mpr h0]
      simp
  | inr h1 =>
      rw [h1]
      simp

/-- C2 witness: over the concrete group, the identity peer point is rejected
with `InvalidPeerPublicKey` and no multiplication is performed. -/
theorem ecdh_compute_shared_rejects_invalid_peer_witness :
    ((0 : ZMod 5) = toyGroup.zero ∨ toyGroup.onCurve 0 = false) ∧
    ecdh_compute_shared_steps toyGroup (0 : ZMod 5) 3 =
      (Except.error EcdhError.InvalidPeerPublicKey, false) :=
  ⟨Or.inl rfl,
    ecdh_compute_shared_rejects_invalid_peer toyGroup toyValid 0 3 (Or.inl rfl)⟩

/-- C3: Key-generation correctness — every successful run of
`ecdh_gen_public` returns a secret scalar in `[1, order-1]` with the public
point equal to that multiple of the base point, and every random draw at
least the order is discarded, generation continuing with the next draw. -/
theorem ecdh_gen_public_range {Point : Type} (grp : ECGroup Point)
    (rng : List (Option Nat)) (d : Nat) (Q : Point)
    (h : ecdh_gen_public grp rng = Except.ok (d, Q)) :
    (1 ≤ d ∧ d < grp.N ∧ Q = grp.mul d grp.G) ∧
    ∀ (v : Nat) (rest : List (Option Nat)), grp.N ≤ v →
      ecdh_gen_public grp (some v :: rest) = ecdh_gen_public grp rest := by
  obtain ⟨h1, h2, h3, -⟩ := ecdh_gen_public_spec grp rng d Q h
  exact ⟨⟨h1, h2, h3⟩, fun v rest hv => ecdh_gen_public_redraw grp v rest hv⟩

/-- C3 witness: the random source first yields 7 (at least the order 5),
then 2; generation discards the first draw and succeeds with scalar 2 in
`[1, 4]` and public point `2 * G`. -/
theorem ecdh_gen_public_range_witness :
    ecdh_gen_public toyGroup [some 7, some 2] = Except.ok (2, (2 : ZMod 5)) ∧
    ((1 ≤ 2 ∧ 2 < toyGroup.N ∧ (2 : ZMod 5) = toyGroup.mul 2 toyGroup.G) ∧
      ∀ (v : Nat) (rest : List (Option Nat)), toyGroup.N ≤ v →
        ecdh_gen_public toyGroup (some v :: rest) = ecdh_gen_public toyGroup rest) :=
  ⟨rfl, ecdh_gen_public_range toyGroup [some 7, some 2] 2 2 rfl⟩

/-- C4: Zeroization on free — after `ecdh_free` of any context, including a
partially constructed one, the secret scalar and the shared secret are zero. -/
theorem ecdh_free_zeroizes {Point : Type} (ctx : ecdh_context Point) :
    (ecdh_free ctx).d = 0 ∧ (ecdh_free ctx).z = 0 :=
  ⟨rfl, rfl⟩

/-- The byte encoding at a fixed width has exactly that width. -/
theorem natToBytesBE_length : ∀ (w n : Nat), (natToBytesBE w n).length = w
  | 0, _ => rfl
  | w + 1, n => by
      simp only [natToBytesBE, List.length_append, List.length_singleton,
        natToBytesBE_length w]

/-- The parameter block's length equals the required length computed from the
group and the point format alone. -/
theorem ecdh_params_encoding_length {Point : Type} (grp : ECGroup Point) (pf : PointFormat)
    (Q : Point) : (ecdh_params_encoding grp pf Q).length = ecdh_params_len grp pf := by
  cases pf <;>
    simp [ecdh_params_encoding, ecdh_params_len, ecp_point_write, natToBytesBE_length] <;>
    ring

/-- C5: Buffer discipline — when the destination buffer is smaller than the
required encoding length, `ecdh_make_server_params` fails with
`BufferTooSmall` and leaves the buffer untouched; on success, `olen` is the
exact number of bytes written, the written prefix is the parameter block for
the generated public point, and the rest of the buffer is untouched. -/
theorem ecdh_make_server_params_buffer {Point : Type} (ctx : ecdh_context Point)
    (rng : List (Option Nat)) (buf : List Nat) (res : Except EcdhError Unit)
    (ctx' : ecdh_context Point) (olen : Nat) (buf' : List Nat)
    (h : ecdh_make_server_params ctx rng buf = (res, ctx', olen, buf')) :
    (buf.length < ecdh_params_len ctx.grp ctx.point_format →
      res = Except.error EcdhError.BufferTooSmall ∧ buf' = buf ∧ olen = 0) ∧
    (res = Except.ok () →
      olen = ecdh_params_len ctx.grp ctx.point_format ∧
      olen ≤ buf.length ∧
      buf'.take olen = ecdh_params_encoding ctx.grp ctx.point_format ctx'.Q ∧
      buf'.drop olen = buf.drop olen) := by
  unfold ecdh_make_server_params at h
  by_cases hb : buf.length < ecdh_params_len ctx.grp ctx.point_format
  · rw [if_pos hb] at h
    rw [Prod.mk.injEq, Prod.mk.injEq, Prod.mk.injEq] at h
    obtain ⟨hres, hctx, holen, hbuf⟩ := h
    refine ⟨fun _ => ⟨hres.symm, hbuf.symm, holen.symm⟩, fun hok => ?_⟩
    rw [← hres] at hok
    exact absurd hok (by simp)
  · rw [if_neg hb] at h
    cases hg : ecdh_gen_public ctx.grp rng with
    | error e =>
        rw [hg] at h
        rw [Prod.mk.injEq, Prod.mk.injEq, Prod.mk.injEq] at h
        obtain ⟨hres, hctx, holen, hbuf⟩ := h
        refine ⟨fun hlt => absurd hlt hb, fun hok => ?_⟩
        rw [← hres] at hok
        exact absurd hok (by simp)
    | ok dQ =>
        obtain ⟨d0, Q0⟩ := dQ
        rw [hg] at h
        simp only at h
        rw [Prod.mk.injEq, Prod.mk.injEq, Prod.mk.injEq] at h
        obtain ⟨hres, hctx, holen, hbuf⟩ := h
        refine ⟨fun hlt => absurd hlt hb, fun _ => ?_⟩
        have hQ : ctx'.Q = Q0 := by rw [← hctx]
        have hlen : (ecdh_params_encoding ctx.grp ctx.point_format Q0).length =
            ecdh_params_len ctx.grp ctx.point_format :=
          ecdh_params_encoding_length ctx.grp ctx.point_format Q0
        subst holen hbuf
        rw [hQ, hlen]
        refine ⟨rfl, le_of_not_lt hb, ?_, ?_⟩
        · rw [← hlen]
          unfold writeBytes
          exact List.take_left _ _
        · rw [← hlen]
          unfold writeBytes
          exact List.drop_left _ _

/-- The toy context after a successful `ecdh_make_server_params` with draw 2. -/
def toyCtx2 : ecdh_context (ZMod 5) :=
  { toyCtx with d := 2, Q := 2 }

/-- C5 witness: over the concrete group the required length is 7 bytes. A
6-byte buffer (one byte short) fails with `BufferTooSmall` and is untouched;
a 7-byte buffer succeeds with `olen = 7`, the written prefix being the
parameter block of the generated point. -/
theorem ecdh_make_server_params_buffer_witness :
    ecdh_make_server_params toyCtx [some 2] (List.replicate 6 0) =
      (Except.error EcdhError.BufferTooSmall, toyCtx, 0, List.replicate 6 0) ∧
    ecdh_make_server_params toyCtx [some 2] (List.replicate 7 0) =
      (Except.ok (), toyCtx2, 7, [3, 0, 23, 3, 4, 2, 2]) ∧
    (((List.replicate (7 : Nat) (0 : Nat)).length <
          ecdh_params_len toyCtx.grp toyCtx.point_format →
        Except.ok () = Except.error EcdhError.BufferTooSmall ∧
          ([3, 0, 23, 3, 4, 2, 2] : List Nat) = List.replicate 7 0 ∧ (7 : Nat) = 0) ∧
      ((Except.ok () : Except EcdhError Unit) = Except.ok () →
        7 = ecdh_params_len toyCtx.grp toyCtx.point_format ∧
        7 ≤ (List.replicate (7 : Nat) (0 : Nat)).length ∧
        ([3, 0, 23, 3, 4, 2, 2] : List Nat).take 7 =
          ecdh_params_encoding toyCtx.grp toyCtx.point_format toyCtx2.Q ∧
        ([3, 0, 23, 3, 4, 2, 2] : List Nat).drop 7 =
          (List.replicate (7 : Nat) (0 : Nat)).drop 7)) :=
  ⟨rfl, rfl,
    ecdh_make_server_params_buffer toyCtx [some 2] (List.replicate 7 0) (Except.ok ())
      toyCtx2 7 [3, 0, 23, 3, 4, 2, 2] rfl⟩

/-- C6: Non-identity of generated public keys — every successful run of
`ecdh_gen_public` over a valid group returns a public point different from
the group's identity element. -/
theorem ecdh_gen_public_nonidentity {Point : Type} (grp : ECGroup Point) (hv : grp.Valid)
    (rng : List (Option Nat)) (d : Nat) (Q : Point)
    (h : ecdh_gen_public grp rng = Except.ok (d, Q)) : Q ≠ grp.zero := by
  obtain ⟨-, -, -, hz⟩ := ecdh_gen_public_spec grp rng d Q h
  intro h0
  rw [(hv.isZero_iff Q).mpr h0] at hz
  exact absurd hz (by simp)

/-- C6 witness: over the concrete group, generation with draw 2 yields the
point `2 * G`, which is not the identity. -/
theorem ecdh_gen_public_nonidentity_witness :
    ecdh_gen_public toyGroup [some 2] = Except.ok (2, (2 : ZMod 5)) ∧
    (2 : ZMod 5) ≠ toyGroup.zero :=
  ⟨rfl, ecdh_gen_public_nonidentity toyGroup toyValid [some 2] 2 2 rfl⟩

/-- C7: Frame effect of `ecdh_make_server_params` — every call leaves the
peer public point, the shared secret, the group and the point format of the
context unchanged, and on success the secret scalar and public point are
exactly the pair produced by the internal key generation. -/
theorem ecdh_make_server_params_frame {Point : Type} (ctx : ecdh_context Point)
    (rng : List (Option Nat)) (buf : List Nat) (res : Except EcdhError Unit)
    (ctx' : ecdh_context Point) (olen : Nat) (buf' : List Nat)
    (h : ecdh_make_server_params ctx rng buf = (res, ctx', olen, buf')) :
    ctx'.Qp = ctx.Qp ∧ ctx'.z = ctx.z ∧ ctx'.grp = ctx.grp ∧
      ctx'.point_format = ctx.point_format ∧
      (res = Except.ok () → ecdh_gen_public ctx.grp rng = Except.ok (ctx'.d, ctx'.Q)) := by
  unfold ecdh_make_server_params at h
  by_cases hb : buf.length < ecdh_params_len ctx.grp ctx.point_format
  · rw [if_pos hb] at h
    rw [Prod.mk.injEq, Prod.mk.injEq, Prod.mk.injEq] at h
    obtain ⟨hres, hctx, -, -⟩ := h
    subst hctx
    refine ⟨rfl, rfl, rfl, rfl, fun hok => ?_⟩
    rw [← hres] at hok
    exact absurd hok (by simp)
  · rw [if_neg hb] at h
    cases hg : ecdh_gen_public ctx.grp rng with
    | error e =>
        rw [hg] at h
        rw [Prod.mk.injEq, Prod.mk.injEq, Prod.mk.injEq] at h
        obtain ⟨hres, hctx, -, -⟩ := h
        subst hctx
        refine ⟨rfl, rfl, rfl, rfl, fun hok => ?_⟩
        rw [← hres] at hok
        exact absurd hok (by simp)
    | ok dQ =>
        obtain ⟨d0, Q0⟩ := dQ
        rw [hg] at h
        simp only at h
        rw [Prod.mk.injEq, Prod.mk.injEq, Prod.mk.injEq] at h
        obtain ⟨hres, hctx, -, -⟩ := h
        subst hctx
        exact ⟨rfl, rfl, rfl, rfl, fun _ => rfl⟩

/-- C7 witness: the successful call over the toy context leaves `Qp`, `z`,
the group and the point format unchanged, and stores the internally generated
pair in `d` and `Q`. -/
theorem ecdh_make_server_params_frame_witness :
    ecdh_make_server_params toyCtx [some 2] (List.replicate 7 0) =
      (Except.ok (), toyCtx2, 7, [3, 0, 23, 3, 4, 2, 2]) ∧
    (toyCtx2.Qp = toyCtx.Qp ∧ toyCtx2.z = toyCtx.z ∧ toyCtx2.grp = toyCtx.grp ∧
      toyCtx2.point_format = toyCtx.point_format ∧
      ((Except.ok () : Except EcdhError Unit) = Except.ok () →
        ecdh_gen_public toyCtx.grp [some 2] = Except.ok (toyCtx2.d, toyCtx2.Q))) :=
  ⟨rfl,
    ecdh_make_server_params_frame toyCtx [some 2] (List.replicate 7 0) (Except.ok ())
      toyCtx2 7 [3, 0, 23, 3, 4, 2, 2] rfl⟩

/-- C8: Group immutability — the group operand of `ecdh_gen_public` and
`ecdh_compute_shared` holds the same value after the call, and
`ecdh_make_server_params` leaves the group field of the context unchanged on
every path. -/
theorem ecdh_group_immutable {Point : Type} (grp : ECGroup Point)
    (rng rng2 : List (Option Nat)) (z : Nat) (Qp : Point) (d : Nat)
    (ctx : ecdh_context Point) (buf : List Nat) :
    (ecdh_gen_public_mem grp rng).1 = grp ∧
    (ecdh_compute_shared_mem grp z Qp d).1 = grp ∧
    ((ecdh_make_server_params ctx rng2 buf).2.1).grp = ctx.grp := by
  refine ⟨rfl, ?_, ?_⟩
  · unfold ecdh_compute_shared_mem
    cases ecdh_compute_shared grp Qp d <;> rfl
  · unfold ecdh_make_server_params
    by_cases hb : buf.length < ecdh_params_len ctx.grp ctx.point_format
    · rw [if_pos hb]
    · rw [if_neg hb]
      cases ecdh_gen_public ctx.grp rng2 with
      | error e => rfl
      | ok dQ =>
          obtain ⟨d0, Q0⟩ := dQ
          rfl

/-- C9: Determinism of shared-secret computation — `ecdh_compute_shared`
takes no randomness, so two runs on the same group, peer point and secret
scalar return the same result. -/
theorem ecdh_compute_shared_deterministic {Point : Type} (grp : ECGroup Point) (Qp : Point)
    (d : Nat) (r1 r2 : Except EcdhError Nat)
    (h1 : ecdh_compute_shared grp Qp d = r1) (h2 : ecdh_compute_shared grp Qp d = r2) :
    r1 = r2 :=
  h1.symm.trans h2

/-- C9 witness: two runs over the concrete group on peer point 3 and scalar 2
both return the shared value 1. -/
theorem ecdh_compute_shared_deterministic_witness :
    ecdh_compute_shared toyGroup (3 : ZMod 5) 2 = Except.ok 1 ∧
    ecdh_compute_shared toyGroup (3 : ZMod 5) 2 = Except.ok 1 ∧
    (Except.ok 1 : Except EcdhError Nat) = Except.ok 1 :=
  ⟨rfl, rfl, ecdh_compute_shared_deterministic toyGroup 3 2 (Except.ok 1) (Except.ok 1) rfl rfl⟩

/-- C10: Input preservation by `ecdh_compute_shared` — the peer public point
and the secret scalar hold their input values after the call; only the
destination `z` is written: to the shared value on success, and not at all on
error. -/
theorem ecdh_compute_shared_const_inputs {Point : Type} (grp : ECGroup Point) (z : Nat)
    (Qp : Point) (d : Nat) (grp' : ECGroup Point) (z' : Nat) (Qp' : Point) (d' : Nat)
    (res : Except EcdhError Unit)
    (h : ecdh_compute_shared_mem grp z Qp d = (grp', z', Qp', d', res)) :
    Qp' = Qp ∧ d' = d ∧
      (res = Except.ok () → ecdh_compute_shared grp Qp d = Except.ok z') ∧
      (∀ e, res = Except.error e → z' = z) := by
  unfold ecdh_compute_shared_mem at h
  cases hc : ecdh_compute_shared grp Qp d with
  | error e0 =>
      rw [hc] at h
      simp only at h
      rw [Prod.mk.injEq, Prod.mk.injEq, Prod.mk.injEq, Prod.mk.injEq] at h
      obtain ⟨-, hz, hQ, hd, hres⟩ := h
      refine ⟨hQ.symm, hd.symm, fun hok => ?_, fun e he => hz.symm⟩
      rw [← hres] at hok
      exact absurd hok (by simp)
  | ok zv =>
      rw [hc] at h
      simp only at h
      rw [Prod.mk.injEq, Prod.mk.injEq, Prod.mk.injEq, Prod.mk.injEq] at h
      obtain ⟨-, hz, hQ, hd, hres⟩ := h
      refine ⟨hQ.symm, hd.symm, fun _ => ?_, fun e he => ?_⟩
      · rw [← hz]
      · rw [← hres] at he
        exact absurd he (by simp)

/-- C10 witness: over the concrete group, a call with stale shared secret 9,
peer point 3 and scalar 2 leaves the peer point and scalar unchanged and
writes the shared value 1. -/
theorem ecdh_compute_shared_const_inputs_witness :
    ecdh_compute_shared_mem toyGroup 9 (3 : ZMod 5) 2 =
      (toyGroup, 1, (3 : ZMod 5), 2, Except.ok ()) ∧
    ((3 : ZMod 5) = (3 : ZMod 5) ∧ (2 : Nat) = 2 ∧
      ((Except.ok () : Except EcdhError Unit) = Except.ok () →
        ecdh_compute_shared toyGroup (3 : ZMod 5) 2 = Except.ok 1) ∧
      ∀ e, (Except.ok () : Except EcdhError Unit) = Except.error e → (1 : Nat) = 9) :=
  ⟨rfl,
    ecdh_compute_shared_const_inputs toyGroup 9 3 2 toyGroup 1 3 2 (Except.ok ()) rfl⟩
